import Mathlib

/- Shallow embedding of the zlog repository: the pipeline-assembly logic of
   config.go (Config.Build, Config.UpdateLevel, Config.InitLogServer,
   CustomTimeEncoder) and the gin request-log formatter (LogFormatter).
   Mutable zap.AtomicLevel cells are modelled as an explicit GateState that a
   core's LevelEnabler reads at delivery time; panics are modelled as
   Except.error; the one-shot HTTP server start is modelled as an explicit
   state transition on a LogServerState. -/

namespace zapcore

/-- Severity levels of zapcore: Debug = -1, Info = 0, Warn = 1, Error = 2,
    DPanic = 3, Panic = 4, Fatal = 5, ordered as integers. -/
abbrev Level := Int

def DebugLevel : Level := -1

def InfoLevel : Level := 0

def WarnLevel : Level := 1

def ErrorLevel : Level := 2

def DPanicLevel : Level := 3

def PanicLevel : Level := 4

def FatalLevel : Level := 5

end zapcore

/-- The level encoder selected in EncoderConfig.EncodeLevel:
    zapcore.LowercaseLevelEncoder (plain, used for JSON and as the base) or
    zapcore.CapitalColorLevelEncoder (the ANSI-color augmentation). -/
inductive LevelEncoder where
  | lowercase
  | capitalColor
deriving DecidableEq

/-- zapcore.EncoderConfig as constructed in Config.Build (lines 76-88 of
    config.go); the fields that are constant function values in Go
    (EncodeTime = CustomTimeEncoder, EncodeDuration, EncodeCaller) are fixed
    by that construction and carried implicitly. -/
structure EncoderConfig where
  messageKey : String
  levelKey : String
  timeKey : String
  nameKey : String
  callerKey : String
  stacktraceKey : String
  lineEnding : String
  encodeLevel : LevelEncoder
deriving DecidableEq

/-- A zapcore.Encoder: NewJSONEncoder or NewConsoleEncoder over a config. -/
inductive Encoder where
  | jsonEnc (cfg : EncoderConfig)
  | consoleEnc (cfg : EncoderConfig)
deriving DecidableEq

/-- lumberjack.Logger rotation policy as filled in by Config.Build. -/
structure LumberjackLogger where
  filename : String
  maxSize : Int
  maxAge : Int
  maxBackups : Int
  localTime : Bool
  compress : Bool
deriving DecidableEq

/-- Modelled from the spec: report.ReportConfig lives in the repository's
    report package, which is not under src/; per the spec it carries its own
    minimum-severity threshold, "defaulting to warning if unset".  `none`
    models the zero value zap.AtomicLevel (no level set yet), which
    Config.Build compares against. -/
structure ReportConfig where
  Level : Option zapcore.Level
deriving DecidableEq

/-- A zapcore.WriteSyncer as assembled by Config.Build: os.Stdout,
    zapcore.AddSync of a lumberjack logger, zapcore.Lock, a
    zapcore.BufferedWriteSyncer wrapper, or report.NewReportWriterBuffer. -/
inductive WriteSyncer where
  | stdout
  | addSync (l : LumberjackLogger)
  | lock (ws : WriteSyncer)
  | buffered (ws : WriteSyncer) (size : Int) (flushInterval : Int)
  | reportWriter (rc : ReportConfig)
deriving DecidableEq

/-- Observer: whether a write syncer's outermost layer is the
    BufferedWriteSyncer decorator. -/
def WriteSyncer.isBuffered : WriteSyncer → Bool
  | .buffered _ _ _ => true
  | _ => false

/-- The live values of the mutable zap.AtomicLevel cells at a given moment:
    the main Severity Gate (Config.Level) and the report gate
    (ReportConfig.Level). -/
structure GateState where
  main : zapcore.Level
  report : zapcore.Level
deriving DecidableEq

/-- The zapcore.LevelEnabler a core was constructed with: the shared main
    gate (lc.Level), the shared report gate (lc.ReportConfig.Level), or a
    fixed constant level (zapcore.ErrorLevel for the error-file core). -/
inductive LevelEnabler where
  | mainGate
  | reportGate
  | fixedLevel (l : zapcore.Level)
deriving DecidableEq

/-- The threshold value an enabler yields under the current gate state:
    atomic gates are read live, a fixed level ignores the state. -/
def LevelEnabler.value : LevelEnabler → GateState → zapcore.Level
  | .mainGate, g => g.main
  | .reportGate, g => g.report
  | .fixedLevel l, _ => l

/-- zapcore.NewCore's triple: encoder, write syncer, level enabler. -/
structure Core where
  enc : Encoder
  ws : WriteSyncer
  levelEnab : LevelEnabler
deriving DecidableEq

/-- Delivery decision of zapcore's ioCore.Check: a record of severity s is
    written iff s is at or above the enabler's value read at delivery time
    (Level.Enabled: lvl >= l). -/
def Core.Enabled (c : Core) (g : GateState) (s : zapcore.Level) : Bool :=
  decide (c.levelEnab.value g ≤ s)

/-- The zap.Option values Config.Build appends to lc.options. -/
inductive ZapOption where
  | addCaller
  | addCallerSkip (skip : Int)
  | addStacktrace (lvl : zapcore.Level)
deriving DecidableEq

/-- The finished zap.Logger: the teed cores, the static fields added by
    logger.With, and the options applied by logger.WithOptions. -/
structure Logger where
  cores : List Core
  fields : List (String × String)
  options : List ZapOption
deriving DecidableEq

/-- Config from config.go; Level holds the initial value of the main gate
    (the AtomicLevel cell itself is modelled by GateState.main). -/
structure Config where
  Name : String
  Level : zapcore.Level
  Stacktrace : Bool
  AddCaller : Bool
  CallerShip : Int
  Mode : String
  FileName : String
  ErrorFileName : String
  MaxSize : Int
  MaxAge : Int
  MaxBackup : Int
  Async : Bool
  Json : Bool
  Compress : Bool
  Console : Bool
  Color : Bool
  Port : Int
  ReportConfig : Option ReportConfig
  options : List ZapOption
deriving DecidableEq

def _file : String := "file"

def _console : String := "console"

/-- 256 * 1024 bytes: the BufferedWriteSyncer size used by Config.Build. -/
def _defaultBufferSize : Int := 256 * 1024

/-- time.Second in nanoseconds (Go time.Duration is an int64 of ns). -/
def timeSecond : Int := 1000000000

/-- time.Minute in nanoseconds. -/
def timeMinute : Int := 60 * timeSecond

/-- 30 * time.Second: the BufferedWriteSyncer flush interval. -/
def _defaultFlushInterval : Int := 30 * timeSecond

/-- Config.UpdateLevel: lc.Level.SetLevel(level) sets the main gate cell. -/
def Config.UpdateLevel (_lc : Config) (g : GateState) (level : zapcore.Level) :
    GateState :=
  { g with main := level }

/-- The lumberjack.Logger for the normal file (config.go lines 94-101). -/
def Config.normalLumberjack (lc : Config) : LumberjackLogger :=
  { filename := lc.FileName, maxSize := lc.MaxSize, maxAge := lc.MaxAge,
    maxBackups := lc.MaxBackup, localTime := true, compress := lc.Compress }

/-- The lumberjack.Logger for the error file (config.go lines 103-110). -/
def Config.errorLumberjack (lc : Config) : LumberjackLogger :=
  { filename := lc.ErrorFileName, maxSize := lc.MaxSize, maxAge := lc.MaxAge,
    maxBackups := lc.MaxBackup, localTime := true, compress := lc.Compress }

/-- The primary write syncer before async wrapping (config.go lines 91-114):
    Lock(os.Stdout) in console mode, Lock(AddSync(lumberjack)) in file mode. -/
def Config.rawWS (lc : Config) : WriteSyncer :=
  if lc.Mode = _console then .lock .stdout
  else .lock (.addSync lc.normalLumberjack)

/-- The error write syncer before async wrapping: only in file mode with a
    non-empty ErrorFileName (config.go lines 102-112). -/
def Config.rawErrorWS (lc : Config) : Option WriteSyncer :=
  if lc.Mode = _console then none
  else if lc.ErrorFileName ≠ "" then some (.lock (.addSync lc.errorLumberjack))
  else none

/-- The primary write syncer after the async wrap (config.go lines 127-132). -/
def Config.mainWS (lc : Config) : WriteSyncer :=
  if lc.Async then .buffered lc.rawWS _defaultBufferSize _defaultFlushInterval
  else lc.rawWS

/-- The error write syncer after the async wrap (config.go lines 133-139). -/
def Config.errorWS (lc : Config) : Option WriteSyncer :=
  if lc.Async then
    lc.rawErrorWS.map (fun e => .buffered e _defaultBufferSize _defaultFlushInterval)
  else lc.rawErrorWS

/-- The zapcore.EncoderConfig literal of config.go lines 76-88. -/
def encoderConfig : EncoderConfig :=
  { messageKey := "msg", levelKey := "level", timeKey := "time",
    nameKey := "logger", callerKey := "caller", stacktraceKey := "stacktrace",
    lineEnding := "\n", encodeLevel := .lowercase }

/-- The encoder config after the color mutation (config.go lines 117-119):
    CapitalColorLevelEncoder iff Color and not Json. -/
def Config.selectedEncoderConfig (lc : Config) : EncoderConfig :=
  if lc.Color ∧ ¬lc.Json then { encoderConfig with encodeLevel := .capitalColor }
  else encoderConfig

/-- The globally selected encoder (config.go lines 120-124). -/
def Config.selectedEncoder (lc : Config) : Encoder :=
  if lc.Json then .jsonEnc lc.selectedEncoderConfig
  else .consoleEnc lc.selectedEncoderConfig

/-- The encoder handed to the report core (config.go lines 156-159): when the
    global format is not JSON, rebuild a JSON encoder with the level encoder
    reset to lowercase; otherwise keep the (already JSON) global encoder. -/
def Config.reportEncoder (lc : Config) : Encoder :=
  if ¬lc.Json then
    .jsonEnc { lc.selectedEncoderConfig with encodeLevel := .lowercase }
  else lc.selectedEncoder

/-- The report level default (config.go lines 160-162): a zero AtomicLevel is
    replaced by an atomic level at zap.WarnLevel. -/
def reportWithDefault (rc : ReportConfig) : ReportConfig :=
  if rc.Level = none then { rc with Level := some zapcore.WarnLevel } else rc

/-- The core list assembled by config.go lines 142-165, in append order:
    primary core (main gate), error-file core (fixed zapcore.ErrorLevel),
    console-also core in file mode (fresh Lock(os.Stdout), main gate), and
    the report core (report gate). -/
def Config.assembleCores (lc : Config) : List Core :=
  [Core.mk lc.selectedEncoder lc.mainWS .mainGate]
  ++ (match lc.errorWS with
      | some errorWs => [Core.mk lc.selectedEncoder errorWs (.fixedLevel zapcore.ErrorLevel)]
      | none => [])
  ++ (if lc.Mode = _file ∧ lc.Console then
        [Core.mk lc.selectedEncoder (.lock .stdout) .mainGate]
      else [])
  ++ (match lc.ReportConfig with
      | some rc => [Core.mk lc.reportEncoder (.reportWriter (reportWithDefault rc)) .reportGate]
      | none => [])

/-- The option list after config.go lines 171-181: lc.options with AddCaller,
    AddCallerSkip(CallerShip) and AddStacktrace(PanicLevel) appended according
    to the flags.  Build stores this back into the receiver's options slice. -/
def Config.finalOptions (lc : Config) : List ZapOption :=
  let o := lc.options
  let o := if lc.AddCaller then
      let o1 := o ++ [ZapOption.addCaller]
      if lc.CallerShip ≠ 0 then o1 ++ [ZapOption.addCallerSkip lc.CallerShip] else o1
    else o
  if lc.Stacktrace then o ++ [ZapOption.addStacktrace zapcore.PanicLevel] else o

/-- The non-panicking tail of Config.Build: the finished logger plus the
    mutated receiver (options appended; report level defaulted in place). -/
def Config.buildLogger (lc : Config) : Logger × Config :=
  ({ cores := lc.assembleCores,
     fields := if lc.Name ≠ "" then [("project", lc.Name)] else [],
     options := lc.finalOptions },
   { lc with options := lc.finalOptions,
             ReportConfig := lc.ReportConfig.map reportWithDefault })

/-- Config.Build: the two log.Panicln guards of config.go lines 62-67 become
    Except.error; on success the assembled logger and the mutated receiver. -/
def Config.Build (lc : Config) : Except String (Logger × Config) :=
  if lc.Mode ≠ _file ∧ lc.Mode ≠ _console then
    Except.error ("mode must be console or file")
  else if lc.Mode = _file ∧ lc.FileName = "" then
    Except.error ("file mode, but file name is empty")
  else
    Except.ok lc.buildLogger

/-- Process-wide state of the level-control HTTP server: whether the _once
    guard has fired, how many listeners are bound, and how many bind failures
    were reported through the logging system (zap.S().Error). -/
structure LogServerState where
  started : Bool
  listeners : Nat
  loggedErrors : Nat
deriving DecidableEq

/-- Config.InitLogServer (config.go lines 200-208): the goroutine runs
    _once.Do, so only the first invocation in the process reaches
    http.ListenAndServe; bindOk tells whether that bind succeeds.  A bind
    failure is logged (loggedErrors), never returned: the function has no
    error result. -/
def Config.InitLogServer (_lc : Config) (st : LogServerState) (bindOk : Bool) :
    LogServerState :=
  if st.started then st
  else
    { started := true,
      listeners := st.listeners + (if bindOk then 1 else 0),
      loggedErrors := st.loggedErrors + (if bindOk then 0 else 1) }

/-- gin.LogFormatterParams as used by the formatter (Latency in ns). -/
structure LogFormatterParams where
  StatusCode : Int
  Path : String
  Method : String
  Latency : Int
  ClientIP : String
deriving DecidableEq

/-- Go time.Duration.Truncate: round toward zero to a multiple of m
    (d - d%m with Go's truncated %). -/
def Duration.truncate (d m : Int) : Int :=
  if m ≤ 0 then d else d - Int.tmod d m

/-- Helper of Go Duration.String (fmtFrac): strip prec low decimal digits of
    u, rendering them as a fraction without trailing zeros ('.' included when
    nonempty); returns the fraction characters and the remaining value. -/
def fmtFracAux : Nat → Nat → Bool → List Char → List Char × Nat
  | 0, u, pr, acc => ((if pr then '.' :: acc else acc), u)
  | n + 1, u, pr, acc =>
    let digit := u % 10
    let pr1 := pr || decide (digit ≠ 0)
    let acc1 := if pr1 then Nat.digitChar digit :: acc else acc
    fmtFracAux n (u / 10) pr1 acc1

def fmtFrac (u : Nat) (prec : Nat) : List Char × Nat :=
  fmtFracAux prec u false []

/-- Go time.Duration.String, the rendering fmt's %v applies to a duration
    (e.g. 75500000000 ns renders as "1m15.5s", 45000000000 ns as "45s"). -/
def durationString (d : Int) : String :=
  let u := d.natAbs
  let core :=
    if u < 1000000000 then
      if u = 0 then "0s"
      else if u < 1000 then toString u ++ "ns"
      else if u < 1000000 then
        let fu := fmtFrac u 3
        toString fu.2 ++ String.mk fu.1 ++ "µs"
      else
        let fu := fmtFrac u 6
        toString fu.2 ++ String.mk fu.1 ++ "ms"
    else
      let fu := fmtFrac u 9
      let secPart := toString (fu.2 % 60) ++ String.mk fu.1 ++ "s"
      let mins := fu.2 / 60
      if mins = 0 then secPart
      else
        let minPart := toString (mins % 60) ++ "m"
        let hours := mins / 60
        if hours = 0 then minPart ++ secPart
        else toString hours ++ "h" ++ minPart ++ secPart
  if d < 0 then "-" ++ core else core

/-- The fmt.Sprintf body of LogFormatter, applied to its (possibly already
    truncated) parameters. -/
def ginSprintf (param : LogFormatterParams) : String :=
  "[GIN] statusCode:" ++ toString param.StatusCode ++ " path:" ++ param.Path
    ++ " method:" ++ param.Method ++ " cost:" ++ durationString param.Latency
    ++ " clientIp:" ++ param.ClientIP

/-- LogFormatter from the gin adapter: truncate the latency to whole seconds
    when it exceeds one minute, then format the request line. -/
def LogFormatter (param : LogFormatterParams) : String :=
  let param1 :=
    if param.Latency > timeMinute then
      { param with Latency := Duration.truncate param.Latency timeSecond }
    else param
  ginSprintf param1

/-- A wall-clock instant as Go's Format decomposes it (24-hour clock in
    hour). -/
structure GoTime where
  year : Nat
  month : Nat
  day : Nat
  hour : Nat
  minute : Nat
  second : Nat
deriving DecidableEq

/-- Go appendInt zero padding: pad the decimal rendering to width w. -/
def zeroPad (w : Nat) (s : String) : String :=
  if w ≤ s.length then s
  else String.mk (List.replicate (w - s.length) '0') ++ s

/-- Interpreter for the Go reference-layout chunks that occur in the layout
    string of CustomTimeEncoder: 2006 = 4-digit year, 01 = 2-digit month,
    02 = 2-digit day, 15 = 2-digit 24-hour hour, 04 = 2-digit minute,
    05 = 2-digit second; any other character is a literal. -/
def goFormatAux (t : GoTime) : List Char → List Char
  | '2' :: '0' :: '0' :: '6' :: rest => (zeroPad 4 (toString t.year)).data ++ goFormatAux t rest
  | '0' :: '1' :: rest => (zeroPad 2 (toString t.month)).data ++ goFormatAux t rest
  | '0' :: '2' :: rest => (zeroPad 2 (toString t.day)).data ++ goFormatAux t rest
  | '1' :: '5' :: rest => (zeroPad 2 (toString t.hour)).data ++ goFormatAux t rest
  | '0' :: '4' :: rest => (zeroPad 2 (toString t.minute)).data ++ goFormatAux t rest
  | '0' :: '5' :: rest => (zeroPad 2 (toString t.second)).data ++ goFormatAux t rest
  | c :: rest => c :: goFormatAux t rest
  | [] => []

/-- Go's t.Format(layout). -/
def goFormat (t : GoTime) (layout : String) : String :=
  String.mk (goFormatAux t layout.data)

/-- CustomTimeEncoder from config.go line 210-212: appends
    t.Format("2006-01-02-15:04:05"). -/
def CustomTimeEncoder (t : GoTime) : String :=
  goFormat t ("2006-01-02-15:04:05")

/-- Specification-side rendering, following the spec's words: the fixed
    literal pattern YYYY-MM-DD-hh:mm:ss on a 24-hour clock, each field
    zero-padded to its width. -/
def timestampPatternSpec (t : GoTime) : String :=
  zeroPad 4 (toString t.year) ++ "-" ++ zeroPad 2 (toString t.month) ++ "-"
    ++ zeroPad 2 (toString t.day) ++ "-" ++ zeroPad 2 (toString t.hour) ++ ":"
    ++ zeroPad 2 (toString t.minute) ++ ":" ++ zeroPad 2 (toString t.second)

/-- A baseline valid console-mode configuration used by the witnesses. -/
def cfgConsole : Config :=
  { Name := "app", Level := zapcore.InfoLevel, Stacktrace := true,
    AddCaller := true, CallerShip := 3, Mode := "console", FileName := "",
    ErrorFileName := "", MaxSize := 0, MaxAge := 0, MaxBackup := 0,
    Async := false, Json := false, Compress := false, Console := false,
    Color := true, Port := 0, ReportConfig := none, options := [] }

/-- An invalid-mode configuration. -/
def cfgBadMode : Config := { cfgConsole with Mode := "tcp" }

/-- File mode with an empty file name. -/
def cfgFileNoName : Config := { cfgConsole with Mode := "file" }

/-- A full-featured async file-mode configuration. -/
def cfgFileFull : Config :=
  { cfgConsole with
    Mode := "file",
    FileName := "app.log",
    ErrorFileName := "err.log",
    Console := true,
    Async := true }

/-- A report config whose level is the zero AtomicLevel (unset). -/
def rcUnset : ReportConfig := { Level := none }

/-- A configuration with a report sink whose level is unset. -/
def cfgReport : Config := { cfgConsole with ReportConfig := some rcUnset }

/-- A gin parameter record with latency a bit above 76 seconds. -/
def ginParam76 : LogFormatterParams :=
  { StatusCode := 200, Path := "/api", Method := "GET",
    Latency := 76 * timeSecond + 500000000, ClientIP := "127.0.0.1" }

/-- Helper: a configuration in console mode, or in file mode with a file
    name, passes both guards, so Build succeeds with buildLogger. -/
theorem Config.build_eq_ok (lc : Config)
    (h : lc.Mode = _console ∨ (lc.Mode = _file ∧ lc.FileName ≠ "")) :
    lc.Build = Except.ok lc.buildLogger := by
  have g1 : ¬(lc.Mode ≠ _file ∧ lc.Mode ≠ _console) := by
    rcases h with h | ⟨h1, _⟩
    · exact fun hc => hc.2 h
    · exact fun hc => hc.1 h1
  have g2 : ¬(lc.Mode = _file ∧ lc.FileName = "") := by
    rcases h with h | ⟨_, h2⟩
    · intro hc
      rw [h] at hc
      exact absurd hc.1 (by simp [_console, _file])
    · exact fun hc => h2 hc.2
  simp [Config.Build, g1, g2]

/-- Helper: a successful Build returns exactly buildLogger. -/
theorem Config.build_ok_elim {lc : Config} {r : Logger × Config}
    (h : lc.Build = Except.ok r) : r = lc.buildLogger := by
  unfold Config.Build at h
  split at h
  · exact absurd h (by simp)
  · split at h
    · exact absurd h (by simp)
    · exact (Except.ok.inj h).symm

/-- Claim C2: for every configuration whose mode is neither "console" nor
    "file", Build halts with the panic message "mode must be console or file"
    before constructing any sink, and no logger is returned. -/
theorem build_panics_on_invalid_mode (lc : Config)
    (h1 : lc.Mode ≠ _file) (h2 : lc.Mode ≠ _console) :
    lc.Build = Except.error ("mode must be console or file") := by
  unfold Config.Build
  rw [if_pos ⟨h1, h2⟩]

theorem build_panics_on_invalid_mode_witness :
    cfgBadMode.Mode ≠ _file ∧ cfgBadMode.Mode ≠ _console ∧
      cfgBadMode.Build = Except.error ("mode must be console or file") :=
  ⟨by decide, by decide,
   build_panics_on_invalid_mode cfgBadMode (by decide) (by decide)⟩

/-- Claim C3: for every configuration with mode = "file" and an empty
    fileName, Build halts with the panic message "file mode, but file name is
    empty" before constructing any sink, and no logger is returned. -/
theorem build_panics_on_empty_filename (lc : Config)
    (h1 : lc.Mode = _file) (h2 : lc.FileName = "") :
    lc.Build = Except.error ("file mode, but file name is empty") := by
  unfold Config.Build
  rw [if_neg (by simp [h1]), if_pos ⟨h1, h2⟩]

theorem build_panics_on_empty_filename_witness :
    cfgFileNoName.Mode = _file ∧ cfgFileNoName.FileName = "" ∧
      cfgFileNoName.Build = Except.error ("file mode, but file name is empty") :=
  ⟨by decide, by decide,
   build_panics_on_empty_filename cfgFileNoName (by decide) (by decide)⟩

/-- Claim C6: starting the control endpoint a second time in the same process
    (even from a second Build call, hence the two receivers) is a no-op: the
    state after two invocations equals the state after the first, at most one
    listener is ever bound, and a bind failure of the first start increments
    the logged-error counter instead of binding a listener; the function has
    no error result, so nothing is surfaced to the caller. -/
theorem init_log_server_once (lc lc2 : Config) (st : LogServerState)
    (b1 b2 : Bool) :
    lc2.InitLogServer (lc.InitLogServer st b1) b2 = lc.InitLogServer st b1 ∧
      (lc.InitLogServer st b1).listeners ≤ st.listeners + 1 ∧
      (lc.InitLogServer ⟨false, 0, 0⟩ false).listeners = 0 ∧
      (lc.InitLogServer ⟨false, 0, 0⟩ false).loggedErrors = 1 := by
  refine ⟨?_, ?_, by simp [Config.InitLogServer], by simp [Config.InitLogServer]⟩
  · by_cases h : st.started
    · simp [Config.InitLogServer, h]
    · simp [Config.InitLogServer, h]
  · by_cases h : st.started
    · simp [Config.InitLogServer, h]
    · cases b1 <;> simp [Config.InitLogServer, h]

/-- Claim C9: for every time value, CustomTimeEncoder (which interprets the
    Go layout string "2006-01-02-15:04:05") renders it exactly in the fixed
    24-hour literal pattern YYYY-MM-DD-hh:mm:ss described by the spec. -/
theorem custom_time_encoder_pattern (t : GoTime) :
    CustomTimeEncoder t = timestampPatternSpec t := by
  apply String.ext
  have lhs : (CustomTimeEncoder t).data
      = (zeroPad 4 (toString t.year)).data
        ++ '-' :: ((zeroPad 2 (toString t.month)).data
        ++ '-' :: ((zeroPad 2 (toString t.day)).data
        ++ '-' :: ((zeroPad 2 (toString t.hour)).data
        ++ ':' :: ((zeroPad 2 (toString t.minute)).data
        ++ ':' :: ((zeroPad 2 (toString t.second)).data
        ++ ([] : List Char)))))) := rfl
  rw [lhs]
  simp [timestampPatternSpec, String.data_append, List.append_assoc]

/-- Claim C1: for every configuration that builds successfully, the first
    (primary) core's enabler is the shared main Severity Gate, so a record of
    severity s is delivered iff s is at or above the gate's value in the
    GateState at delivery time — not the construction-time Config.Level — and
    in particular after UpdateLevel mutates the gate to lvl, delivery is
    decided by lvl. -/
theorem primary_core_live_gate (lc : Config) (l : Logger) (c' : Config)
    (hok : lc.Build = Except.ok (l, c')) :
    ∃ c0 cs, l.cores = c0 :: cs ∧ c0.levelEnab = LevelEnabler.mainGate ∧
      (∀ g s, c0.Enabled g s = decide (g.main ≤ s)) ∧
      (∀ g lvl s, c0.Enabled (lc.UpdateLevel g lvl) s = decide (lvl ≤ s)) := by
  have h := Config.build_ok_elim hok
  have hl : l = lc.buildLogger.1 := congrArg Prod.fst h
  subst hl
  exact ⟨Core.mk lc.selectedEncoder lc.mainWS .mainGate, _, rfl, rfl,
    fun g s => rfl, fun g lvl s => rfl⟩

theorem primary_core_live_gate_witness :
    cfgConsole.Build = Except.ok cfgConsole.buildLogger ∧
      (∃ c0 cs, cfgConsole.buildLogger.1.cores = c0 :: cs ∧
        c0.levelEnab = LevelEnabler.mainGate ∧
        (∀ g s, c0.Enabled g s = decide (g.main ≤ s)) ∧
        (∀ g lvl s, c0.Enabled (cfgConsole.UpdateLevel g lvl) s = decide (lvl ≤ s))) :=
  ⟨rfl, primary_core_live_gate cfgConsole cfgConsole.buildLogger.1
    cfgConsole.buildLogger.2 rfl⟩

/-- Claim C5: whenever an error-only sink is configured (file mode with a
    non-empty errorFileName), the second core's enabler is the fixed constant
    zapcore.ErrorLevel: it delivers exactly the records at or above error
    severity, its decision is the same under every gate state (so lowering the
    main gate does not affect it, and no runtime mutation can change it). -/
theorem error_core_fixed_threshold (lc : Config)
    (hm : lc.Mode = _file) (hf : lc.FileName ≠ "") (he : lc.ErrorFileName ≠ "") :
    ∃ l c' c0 ec rest, lc.Build = Except.ok (l, c') ∧
      l.cores = c0 :: ec :: rest ∧
      ec.levelEnab = LevelEnabler.fixedLevel zapcore.ErrorLevel ∧
      (∀ g s, ec.Enabled g s = decide (zapcore.ErrorLevel ≤ s)) ∧
      (∀ g g' s, ec.Enabled g s = ec.Enabled g' s) := by
  have hok : lc.Build = Except.ok lc.buildLogger :=
    Config.build_eq_ok lc (Or.inr ⟨hm, hf⟩)
  have hnc : ¬lc.Mode = _console := by
    rw [hm]
    simp [_file, _console]
  have hraw : lc.rawErrorWS = some (.lock (.addSync lc.errorLumberjack)) := by
    rw [Config.rawErrorWS, if_neg hnc, if_pos he]
  obtain ⟨e, hew⟩ : ∃ e, lc.errorWS = some e := by
    rw [Config.errorWS]
    by_cases ha : lc.Async <;> simp [ha, hraw]
  have hcores : lc.assembleCores
      = Core.mk lc.selectedEncoder lc.mainWS .mainGate
        :: Core.mk lc.selectedEncoder e (.fixedLevel zapcore.ErrorLevel)
        :: ((if lc.Mode = _file ∧ lc.Console then
              [Core.mk lc.selectedEncoder (.lock .stdout) .mainGate]
            else [])
          ++ (match lc.ReportConfig with
              | some rc =>
                [Core.mk lc.reportEncoder (.reportWriter (reportWithDefault rc)) .reportGate]
              | none => [])) := by
    simp only [Config.assembleCores, hew]
    rfl
  exact ⟨lc.buildLogger.1, lc.buildLogger.2,
    Core.mk lc.selectedEncoder lc.mainWS .mainGate,
    Core.mk lc.selectedEncoder e (.fixedLevel zapcore.ErrorLevel), _, hok,
    hcores, rfl, fun g s => rfl, fun g g' s => rfl⟩

theorem error_core_fixed_threshold_witness :
    cfgFileFull.Mode = _file ∧ cfgFileFull.FileName ≠ "" ∧
      cfgFileFull.ErrorFileName ≠ "" ∧
      (∃ l c' c0 ec rest, cfgFileFull.Build = Except.ok (l, c') ∧
        l.cores = c0 :: ec :: rest ∧
        ec.levelEnab = LevelEnabler.fixedLevel zapcore.ErrorLevel ∧
        (∀ g s, ec.Enabled g s = decide (zapcore.ErrorLevel ≤ s)) ∧
        (∀ g g' s, ec.Enabled g s = ec.Enabled g' s)) :=
  ⟨by decide, by decide, by decide,
   error_core_fixed_threshold cfgFileFull (by decide) (by decide) (by decide)⟩

/-- Claim C7: for every buildable configuration with async = true, the
    buffering decorator with size 256 KiB and flush interval 30 s wraps the
    primary sink (in console mode and in file mode alike) and, whenever the
    error-only sink is present (file mode with a non-empty errorFileName),
    the error-only sink as well, while the console-also core added in file
    mode is built on the bare locked stdout, which carries no buffer. -/
theorem async_buffered_sinks (lc : Config) (l : Logger) (c' : Config)
    (ha : lc.Async = true) (hok : lc.Build = Except.ok (l, c')) :
    (∃ cs, l.cores
        = Core.mk lc.selectedEncoder
            (.buffered lc.rawWS _defaultBufferSize _defaultFlushInterval)
            .mainGate :: cs ∧
      (WriteSyncer.buffered lc.rawWS _defaultBufferSize
        _defaultFlushInterval).isBuffered = true) ∧
    (lc.Mode = _file → lc.ErrorFileName ≠ "" →
      ∃ c0 cs, l.cores = c0 :: Core.mk lc.selectedEncoder
          (.buffered (.lock (.addSync lc.errorLumberjack))
            _defaultBufferSize _defaultFlushInterval)
          (.fixedLevel zapcore.ErrorLevel) :: cs) ∧
    (lc.Mode = _file → lc.Console = true →
      ∃ pre post, l.cores
          = pre ++ Core.mk lc.selectedEncoder (.lock .stdout) .mainGate :: post ∧
        (WriteSyncer.lock .stdout).isBuffered = false) ∧
    _defaultBufferSize = 256 * 1024 ∧ _defaultFlushInterval = 30 * timeSecond := by
  have hl : l = lc.buildLogger.1 := congrArg Prod.fst (Config.build_ok_elim hok)
  subst hl
  have hmain : lc.mainWS
      = .buffered lc.rawWS _defaultBufferSize _defaultFlushInterval := by
    rw [Config.mainWS, if_pos ha]
  refine ⟨?_, ?_, ?_, rfl, rfl⟩
  · rw [← hmain]
    refine ⟨_, rfl, ?_⟩
    rw [hmain]
    rfl
  · intro hm he
    have hnc : ¬lc.Mode = _console := by
      rw [hm]
      simp [_file, _console]
    have hraw : lc.rawErrorWS = some (.lock (.addSync lc.errorLumberjack)) := by
      rw [Config.rawErrorWS, if_neg hnc, if_pos he]
    have hew : lc.errorWS = some (.buffered (.lock (.addSync lc.errorLumberjack))
        _defaultBufferSize _defaultFlushInterval) := by
      rw [Config.errorWS, if_pos ha, hraw]
      rfl
    have hcores : lc.assembleCores
        = Core.mk lc.selectedEncoder lc.mainWS .mainGate
          :: Core.mk lc.selectedEncoder
              (.buffered (.lock (.addSync lc.errorLumberjack))
                _defaultBufferSize _defaultFlushInterval)
              (.fixedLevel zapcore.ErrorLevel)
          :: ((if lc.Mode = _file ∧ lc.Console then
                [Core.mk lc.selectedEncoder (.lock .stdout) .mainGate]
              else [])
            ++ (match lc.ReportConfig with
                | some rc =>
                  [Core.mk lc.reportEncoder
                    (.reportWriter (reportWithDefault rc)) .reportGate]
                | none => [])) := by
      simp only [Config.assembleCores, hew]
      rfl
    exact ⟨Core.mk lc.selectedEncoder lc.mainWS .mainGate, _, hcores⟩
  · intro hm hc
    refine ⟨[Core.mk lc.selectedEncoder lc.mainWS .mainGate]
        ++ (match lc.errorWS with
            | some errorWs =>
              [Core.mk lc.selectedEncoder errorWs (.fixedLevel zapcore.ErrorLevel)]
            | none => []),
      (match lc.ReportConfig with
        | some rc =>
          [Core.mk lc.reportEncoder (.reportWriter (reportWithDefault rc)) .reportGate]
        | none => []), ?_, rfl⟩
    show lc.assembleCores = _
    simp [Config.assembleCores, hm, hc, _file, List.append_assoc]

theorem async_buffered_sinks_witness :
    cfgFileFull.Async = true ∧
    cfgFileFull.Build
        = Except.ok (cfgFileFull.buildLogger.1, cfgFileFull.buildLogger.2) ∧
    (∃ cs, cfgFileFull.buildLogger.1.cores
        = Core.mk cfgFileFull.selectedEncoder
            (.buffered cfgFileFull.rawWS _defaultBufferSize _defaultFlushInterval)
            .mainGate :: cs ∧
      (WriteSyncer.buffered cfgFileFull.rawWS _defaultBufferSize
        _defaultFlushInterval).isBuffered = true) ∧
    (∃ c0 cs, cfgFileFull.buildLogger.1.cores
        = c0 :: Core.mk cfgFileFull.selectedEncoder
            (.buffered (.lock (.addSync cfgFileFull.errorLumberjack))
              _defaultBufferSize _defaultFlushInterval)
            (.fixedLevel zapcore.ErrorLevel) :: cs) ∧
    (∃ pre post, cfgFileFull.buildLogger.1.cores
        = pre ++ Core.mk cfgFileFull.selectedEncoder (.lock .stdout) .mainGate
            :: post ∧
      (WriteSyncer.lock .stdout).isBuffered = false) := by
  have h := async_buffered_sinks cfgFileFull cfgFileFull.buildLogger.1
    cfgFileFull.buildLogger.2 (by decide) rfl
  exact ⟨by decide, rfl, h.1, h.2.1 rfl (by decide), h.2.2.1 rfl rfl⟩

/-- Claim C4: for every buildable configuration carrying a reportConfig, the
    last core (the report core) uses a JSON encoder whose level encoder is
    the plain lowercase one (no color), regardless of the global json and
    color settings, while every other core keeps the globally selected
    encoder. -/
theorem report_core_forced_json (lc : Config) (rc : ReportConfig)
    (hmode : lc.Mode = _console ∨ (lc.Mode = _file ∧ lc.FileName ≠ ""))
    (hrc : lc.ReportConfig = some rc) :
    ∃ l c' front ec, lc.Build = Except.ok (l, c') ∧
      l.cores = front ++ [Core.mk (Encoder.jsonEnc ec)
        (WriteSyncer.reportWriter (reportWithDefault rc)) LevelEnabler.reportGate] ∧
      ec.encodeLevel = LevelEncoder.lowercase ∧
      (∀ c ∈ front, c.enc = lc.selectedEncoder) := by
  have hok : lc.Build = Except.ok lc.buildLogger := Config.build_eq_ok lc hmode
  have henc : ∃ ec, lc.reportEncoder = Encoder.jsonEnc ec ∧
      ec.encodeLevel = LevelEncoder.lowercase := by
    by_cases hj : lc.Json
    · exact ⟨lc.selectedEncoderConfig, by
        simp [Config.reportEncoder, Config.selectedEncoder, hj], by
        simp [Config.selectedEncoderConfig, hj, encoderConfig]⟩
    · exact ⟨{ lc.selectedEncoderConfig with encodeLevel := .lowercase }, by
        simp [Config.reportEncoder, hj], rfl⟩
  obtain ⟨ec, hre, hlow⟩ := henc
  refine ⟨lc.buildLogger.1, lc.buildLogger.2,
    [Core.mk lc.selectedEncoder lc.mainWS .mainGate]
      ++ (match lc.errorWS with
          | some errorWs =>
            [Core.mk lc.selectedEncoder errorWs (.fixedLevel zapcore.ErrorLevel)]
          | none => [])
      ++ (if lc.Mode = _file ∧ lc.Console then
            [Core.mk lc.selectedEncoder (.lock .stdout) .mainGate]
          else []),
    ec, hok, ?_, hlow, ?_⟩
  · show lc.assembleCores = _
    simp only [Config.assembleCores, hrc, hre]
  · intro c hcmem
    simp only [List.mem_append, List.mem_singleton] at hcmem
    rcases hcmem with (hcmem | hcmem) | hcmem
    · rw [hcmem]
    · rcases hE : lc.errorWS with _ | e <;> rw [hE] at hcmem <;> simp at hcmem
      rw [hcmem]
    · rcases hcc : decide (lc.Mode = _file ∧ lc.Console) with _ | _
      · rw [of_decide_eq_false hcc |> if_neg] at hcmem
        simp at hcmem
      · rw [of_decide_eq_true hcc |> if_pos] at hcmem
        simp at hcmem
        rw [hcmem]

theorem report_core_forced_json_witness :
    (cfgReport.Mode = _console ∨
      (cfgReport.Mode = _file ∧ cfgReport.FileName ≠ "")) ∧
      cfgReport.ReportConfig = some rcUnset ∧
      (∃ l c' front ec, cfgReport.Build = Except.ok (l, c') ∧
        l.cores = front ++ [Core.mk (Encoder.jsonEnc ec)
          (WriteSyncer.reportWriter (reportWithDefault rcUnset))
          LevelEnabler.reportGate] ∧
        ec.encodeLevel = LevelEncoder.lowercase ∧
        (∀ c ∈ front, c.enc = cfgReport.selectedEncoder)) :=
  ⟨Or.inl (by decide), by decide,
   report_core_forced_json cfgReport rcUnset (Or.inl (by decide)) (by decide)⟩

/-- Claim C8: the request-log formatter truncates the latency to whole
    seconds exactly when it exceeds one minute (the truncated value is a
    multiple of one second), and renders the parameters unchanged otherwise;
    in particular a latency of exactly 75 s (above the threshold, already
    whole) is rendered as exactly 75 s, and a latency of 45 s is rendered
    unmodified. -/
theorem log_formatter_latency_truncation (p : LogFormatterParams) :
    (timeMinute < p.Latency →
      LogFormatter p
          = ginSprintf { p with Latency := Duration.truncate p.Latency timeSecond } ∧
        Int.tmod (Duration.truncate p.Latency timeSecond) timeSecond = 0) ∧
    (p.Latency ≤ timeMinute → LogFormatter p = ginSprintf p) ∧
    (p.Latency = 75 * timeSecond → LogFormatter p = ginSprintf p) ∧
    (p.Latency = 45 * timeSecond → LogFormatter p = ginSprintf p) := by
  refine ⟨fun h => ⟨?_, ?_⟩, fun h => ?_, fun h => ?_, fun h => ?_⟩
  · unfold LogFormatter
    rw [if_pos h]
  · unfold Duration.truncate
    rw [if_neg (by norm_num [timeSecond])]
    have hd : p.Latency - Int.tmod p.Latency timeSecond
        = timeSecond * Int.tdiv p.Latency timeSecond := by
      have := Int.tdiv_add_tmod p.Latency timeSecond
      omega
    rw [hd, Int.mul_tmod_right]
  · unfold LogFormatter
    rw [if_neg (not_lt.mpr h)]
  · unfold LogFormatter
    rw [h, if_pos (by norm_num [timeMinute, timeSecond])]
    have ht : Duration.truncate (75 * timeSecond) timeSecond = 75 * timeSecond := by
      decide
    rw [ht, ← h]
  · unfold LogFormatter
    rw [h, if_neg (by norm_num [timeMinute, timeSecond])]

theorem log_formatter_latency_truncation_witness :
    timeMinute < ginParam76.Latency ∧
      LogFormatter ginParam76 = ginSprintf
        { ginParam76 with
          Latency := Duration.truncate ginParam76.Latency timeSecond } :=
  ⟨by decide, ((log_formatter_latency_truncation ginParam76).1 (by decide)).1⟩

/-- Claim C10: Build is not idempotent on its receiver: with addCaller
    enabled (and a nonzero caller-skip), a first Build appends the
    cross-cutting options once, and a second Build on the returned (mutated)
    Config appends them again, so the second logger's applied options contain
    the caller-skip option twice instead of once. -/
theorem build_options_accumulate (lc : Config)
    (hmode : lc.Mode = _console ∨ (lc.Mode = _file ∧ lc.FileName ≠ ""))
    (hcaller : lc.AddCaller = true) (hskip : lc.CallerShip ≠ 0)
    (hopts : lc.options = []) :
    ∃ l1 c1 l2 c2,
      lc.Build = Except.ok (l1, c1) ∧ c1.Build = Except.ok (l2, c2) ∧
      l2.options = l1.options ++ l1.options ∧
      l1.options.count (ZapOption.addCallerSkip lc.CallerShip) = 1 ∧
      l2.options.count (ZapOption.addCallerSkip lc.CallerShip) = 2 := by
  have hb1 : lc.Build = Except.ok lc.buildLogger := Config.build_eq_ok lc hmode
  have hb2 : lc.buildLogger.2.Build = Except.ok lc.buildLogger.2.buildLogger :=
    Config.build_eq_ok lc.buildLogger.2 hmode
  have hX : lc.finalOptions
      = [ZapOption.addCaller, ZapOption.addCallerSkip lc.CallerShip]
        ++ (if lc.Stacktrace then [ZapOption.addStacktrace zapcore.PanicLevel]
            else []) := by
    by_cases hst : lc.Stacktrace <;>
      simp [Config.finalOptions, hopts, hcaller, hskip, hst]
  have hY : lc.buildLogger.2.finalOptions = lc.finalOptions ++ lc.finalOptions := by
    show Config.finalOptions
        { lc with options := lc.finalOptions,
                  ReportConfig := lc.ReportConfig.map reportWithDefault }
      = lc.finalOptions ++ lc.finalOptions
    by_cases hst : lc.Stacktrace <;>
      simp [Config.finalOptions, hcaller, hskip, hst, hopts, List.append_assoc]
  have hcount : lc.finalOptions.count (ZapOption.addCallerSkip lc.CallerShip) = 1 := by
    rw [hX]
    by_cases hst : lc.Stacktrace <;> simp [hst, List.count_cons, List.count_append]
  refine ⟨lc.buildLogger.1, lc.buildLogger.2, lc.buildLogger.2.buildLogger.1,
    lc.buildLogger.2.buildLogger.2, hb1, hb2, hY, hcount, ?_⟩
  show (lc.buildLogger.2.finalOptions).count (ZapOption.addCallerSkip lc.CallerShip) = 2
  rw [hY, List.count_append, hcount]

theorem build_options_accumulate_witness :
    (cfgConsole.Mode = _console ∨
      (cfgConsole.Mode = _file ∧ cfgConsole.FileName ≠ "")) ∧
      cfgConsole.AddCaller = true ∧ cfgConsole.CallerShip ≠ 0 ∧
      cfgConsole.options = [] ∧
      (∃ l1 c1 l2 c2,
        cfgConsole.Build = Except.ok (l1, c1) ∧ c1.Build = Except.ok (l2, c2) ∧
        l2.options = l1.options ++ l1.options ∧
        l1.options.count (ZapOption.addCallerSkip cfgConsole.CallerShip) = 1 ∧
        l2.options.count (ZapOption.addCallerSkip cfgConsole.CallerShip) = 2) :=
  ⟨Or.inl (by decide), by decide, by decide, by decide,
   build_options_accumulate cfgConsole (Or.inl (by decide)) (by decide)
     (by decide) (by decide)⟩
